import Mathlib

/-!
Verification development for the staged exoplanet clustering pipeline
(`k-means_analysis/09_kmeans_execution.py`, `10_cluster_analysis.py`,
`11_generate_consistent_scatterplots.py`).

The pipeline is embedded shallowly:

* a `Planet` is a row of the `planets` table (optional numeric attributes,
  per-stage membership flags);
* `getData` is the fetch-and-dropna step of `get_data` / `run_clustering`;
* the numeric collaborators are passed as explicit function parameters:
  `lg` models `np.log10`, `sq` models the square root used by
  `StandardScaler` to turn a variance into a scale, and `fit` models
  `sklearn.cluster.KMeans(...).fit_predict` (an `Except` value models the
  `ValueError` sklearn raises when `n_samples < n_clusters`);
* `runClustering` is `run_clustering` from `10_cluster_analysis.py`
  (fetch, `len < 10` skip, log transform, standardize, fit, save);
* `rankOfCluster` / `clusterLabel` embed the rank-stabilization logic of
  `get_stage_stats` (sort groups by `AVG(pl_rade)`, rank = index + 1) and
  `generate_labeled_scatter` (groupby `cluster_id`, mean of `pl_rade`,
  `sort_values`, rank = index + 1, `get_label`);
* `applyUpdates` is the `UPDATE planets SET <col> = %s WHERE planet_id = %s`
  batch executed over a per-tier column.

Real-valued quantities are embedded as rationals.
-/

/-- The numeric attributes of the `planets` table used by the pipeline. -/
inductive Feature where
  | pl_masse
  | pl_rade
  | pl_orbper
  | pl_eqt
  | density
deriving DecidableEq, Repr

/-- The per-stage membership boolean columns of the `planets` table. -/
inductive StageFlag where
  | s1
  | s1c
  | s2
  | s2c
deriving DecidableEq, Repr

/-- A row of the `planets` table: natural key `pl_name`, surrogate key
`planet_id`, optional physical attributes (SQL `NULL` is `none`), and the
four stage-membership flags. -/
structure Planet where
  planet_id : Nat
  pl_name : String
  pl_masse : Option ℚ
  pl_rade : Option ℚ
  pl_orbper : Option ℚ
  pl_eqt : Option ℚ
  density : Option ℚ
  in_stage1 : Bool
  in_stage1c : Bool
  in_stage2 : Bool
  in_stage2c : Bool
deriving DecidableEq, Repr

/-- Attribute selection by feature name. -/
def getFeature (p : Planet) : Feature → Option ℚ
  | .pl_masse => p.pl_masse
  | .pl_rade => p.pl_rade
  | .pl_orbper => p.pl_orbper
  | .pl_eqt => p.pl_eqt
  | .density => p.density

/-- Stage-flag selection (`WHERE {db_flag} = TRUE`). -/
def flagVal (p : Planet) : StageFlag → Bool
  | .s1 => p.in_stage1
  | .s1c => p.in_stage1c
  | .s2 => p.in_stage2
  | .s2c => p.in_stage2c

/-- One entry of the `STAGES` configuration dictionary of
`10_cluster_analysis.py`. -/
structure StageConfig where
  name : String
  k : Nat
  col : String
  db_flag : StageFlag
  feats : List Feature
deriving DecidableEq, Repr

/-- `STAGES["Stage 1"]`. -/
def stage1Cfg : StageConfig :=
  ⟨"Stage 1", 3, "cluster_s1", .s1, [.pl_rade, .pl_orbper, .pl_eqt]⟩

/-- `STAGES["Stage 1c"]`. -/
def stage1cCfg : StageConfig :=
  ⟨"Stage 1c", 3, "cluster_s1c", .s1c, [.pl_rade, .pl_orbper, .pl_eqt]⟩

/-- `STAGES["Stage 2"]`. -/
def stage2Cfg : StageConfig :=
  ⟨"Stage 2", 4, "cluster_s2", .s2, [.pl_masse, .pl_rade, .pl_orbper, .pl_eqt, .density]⟩

/-- `STAGES["Stage 2c"]`. -/
def stage2cCfg : StageConfig :=
  ⟨"Stage 2c", 4, "cluster_s2c", .s2c, [.pl_masse, .pl_rade, .pl_orbper, .pl_eqt, .density]⟩

/-- The stage catalog, in the iteration order of the driver loop. -/
def STAGES : List StageConfig := [stage1Cfg, stage1cCfg, stage2Cfg, stage2cCfg]

/-- A planet is kept by `dropna(subset=features)` iff every required feature
is non-null. -/
def eligibleRow (feats : List Feature) (p : Planet) : Bool :=
  feats.all fun f => (getFeature p f).isSome

/-- `pd.read_sql(SELECT ... WHERE {db_flag} = TRUE).dropna(subset=features)`:
the rows of the stage's population with every required feature present. -/
def getData (planets : List Planet) (cfg : StageConfig) : List Planet :=
  (planets.filter fun p => flagVal p cfg.db_flag).filter (eligibleRow cfg.feats)

/-- The `1e-6` constant of `np.log10(X[col] + 1e-6)`. -/
def epsQ : ℚ := 1 / 1000000

/-- Raw feature value of a cleaned row (total on rows kept by `dropna`). -/
def featVal (p : Planet) (f : Feature) : ℚ := (getFeature p f).getD 0

/-- The log-transformed feature matrix: one row per planet, one column per
required feature, entries `lg (x + 1e-6)` where `lg` models `np.log10`. -/
def logMatrix (lg : ℚ → ℚ) (df : List Planet) (feats : List Feature) : List (List ℚ) :=
  df.map fun p => feats.map fun f => lg (featVal p f + epsQ)

/-- The `j`-th column of a row-major matrix. -/
def colOf (X : List (List ℚ)) (j : Nat) : List ℚ := X.map fun row => row.getD j 0

/-- Column mean, as computed by `StandardScaler`. -/
def colMean (col : List ℚ) : ℚ := col.sum / col.length

/-- Population (biased) column variance, as computed by `StandardScaler`. -/
def colVariance (col : List ℚ) : ℚ :=
  (col.map fun x => (x - colMean col) ^ 2).sum / col.length

/-- The per-column scale of `StandardScaler`: the square root of the variance,
with sklearn's documented `_handle_zeros_in_scale` fallback replacing a zero
scale by `1`.  `sq` models the floating-point square root. -/
def scaleOf (sq : ℚ → ℚ) (col : List ℚ) : ℚ :=
  if colVariance col = 0 then 1 else sq (colVariance col)

/-- One standardized entry: `(x - mean) / scale`. -/
def stdEntry (sq : ℚ → ℚ) (col : List ℚ) (x : ℚ) : ℚ :=
  (x - colMean col) / scaleOf sq col

/-- `StandardScaler().fit_transform`: standardize every column of the matrix
over the current population. -/
def standardizeMatrix (sq : ℚ → ℚ) (X : List (List ℚ)) : List (List ℚ) :=
  X.map fun row => (List.range row.length).map fun j => stdEntry sq (colOf X j) (row.getD j 0)

/-- The error sklearn's `KMeans.fit_predict` raises when the sample count is
below `n_clusters` (`ValueError: n_samples=... should be >= n_clusters=...`). -/
inductive FitError where
  | insufficientPopulation (n k : Nat)
deriving DecidableEq, Repr

/-- The type of the cluster fitter collaborator: standardized matrix, `k`,
seed (`random_state`) to per-row labels, or the error above. -/
def Fitter := List (List ℚ) → Nat → Nat → Except FitError (List Nat)

/-- A row of the labeled dataframe `df` after `df['cluster_label'] = labels`. -/
structure LabeledRow where
  planet_id : Nat
  pl_name : String
  pl_masse : ℚ
  pl_rade : ℚ
  pl_orbper : ℚ
  pl_eqt : ℚ
  density : ℚ
  cluster_id : Nat
deriving DecidableEq, Repr

/-- Attach one fitted label to one cleaned row. -/
def mkLabeledRow (p : Planet) (l : Nat) : LabeledRow :=
  ⟨p.planet_id, p.pl_name, featVal p .pl_masse, featVal p .pl_rade,
   featVal p .pl_orbper, featVal p .pl_eqt, featVal p .density, l⟩

/-- `df['cluster_label'] = labels`: zip the cleaned rows with the fitted
labels, in row order. -/
def attachLabels (df : List Planet) (labels : List Nat) : List LabeledRow :=
  (df.zip labels).map fun pl => mkLabeledRow pl.1 pl.2

/-- Outcome of `run_clustering` for one stage: `skipped` is the
`if len(df) < 10: return None` early exit, `raised e` is an uncaught fitter
exception propagating out, `saved df` is a completed run whose labels were
written to the database. -/
inductive StageResult where
  | skipped
  | raised (e : FitError)
  | saved (df : List LabeledRow)
deriving DecidableEq, Repr

/-- True exactly on a completed (`saved`) stage outcome. -/
def StageResult.isSaved : StageResult → Bool
  | .saved _ => true
  | _ => false

/-- `run_clustering(conn, stage_name)` from `10_cluster_analysis.py`:
fetch and clean, skip when fewer than 10 rows, log-transform, standardize,
fit `KMeans(n_clusters=k, random_state=42)`, and save the labels. -/
def runClustering (lg sq : ℚ → ℚ) (fit : Fitter) (planets : List Planet)
    (cfg : StageConfig) : StageResult :=
  if (getData planets cfg).length < 10 then .skipped
  else
    match fit (standardizeMatrix sq (logMatrix lg (getData planets cfg) cfg.feats)) cfg.k 42 with
    | .error e => .raised e
    | .ok labels => .saved (attachLabels (getData planets cfg) labels)

/-- The batch `UPDATE planets SET {col} = %s WHERE planet_id = %s` values:
`list(zip(df['cluster_label'], df['planet_id']))`, here as
(planet_id, written value) pairs. -/
def updatesOf (df : List LabeledRow) : List (Nat × Nat) :=
  df.map fun r => (r.planet_id, r.cluster_id)

/-- Look up the value written for a given `planet_id` in the update batch. -/
def findAssign (id : Nat) : List (Nat × Nat) → Option Nat
  | [] => none
  | u :: us => if u.1 = id then some u.2 else findAssign id us

/-- Apply one `UPDATE ... SET col = u.2 WHERE planet_id = u.1` to the
per-tier column state (a `planet_id → Option value` association list). -/
def applyUpdate (db : List (Nat × Option Nat)) (u : Nat × Nat) : List (Nat × Option Nat) :=
  db.map fun e => if e.1 = u.1 then (e.1, some u.2) else e

/-- `cursor.executemany`: apply the whole update batch in order. -/
def applyUpdates (db : List (Nat × Option Nat)) (us : List (Nat × Nat)) :
    List (Nat × Option Nat) :=
  us.foldl applyUpdate db

/-- Look up the stored column value for a `planet_id`. -/
def dbValue (id : Nat) : List (Nat × Option Nat) → Option (Option Nat)
  | [] => none
  | e :: es => if e.1 = id then some e.2 else dbValue id es

/-- The driver loop of `10_cluster_analysis.py` (`for stage in STAGES.keys():
run_clustering(conn, stage)`): process the stages in order, collecting one
outcome per stage; an uncaught exception aborts the remainder of the loop. -/
def runStages (lg sq : ℚ → ℚ) (fit : Fitter) (planets : List Planet) :
    List StageConfig → List StageResult × Option FitError
  | [] => ([], none)
  | cfg :: rest =>
    match runClustering lg sq fit planets cfg with
    | .raised e => ([.raised e], some e)
    | r => ((r :: (runStages lg sq fit planets rest).1), (runStages lg sq fit planets rest).2)

/-- Insert a cluster index into an ascending duplicate-free index list;
builds the (sorted, unique) group keys of `df.groupby('cluster_id')`. -/
def insertId (x : Nat) : List Nat → List Nat
  | [] => [x]
  | y :: ys => if x = y then y :: ys else if x < y then x :: y :: ys else y :: insertId x ys

/-- The distinct raw cluster indices present in the labeled rows
(the group keys of `groupby('cluster_id')`, ascending). -/
def clusterIdsOf (rows : List LabeledRow) : List Nat :=
  rows.foldr (fun r acc => insertId r.cluster_id acc) []

/-- The rows of one raw cluster. -/
def groupRows (rows : List LabeledRow) (c : Nat) : List LabeledRow :=
  rows.filter fun r => r.cluster_id = c

/-- `df.groupby('cluster_id')['pl_rade'].mean()` / `AVG(pl_rade)`: the mean
untransformed radius of one raw cluster. -/
def groupMeanRad (rows : List LabeledRow) (c : Nat) : ℚ :=
  colMean ((groupRows rows c).map fun r => r.pl_rade)

/-- Comparison of (cluster index, mean radius) stat rows by mean radius,
the key of `sort_values('avg_rad')` / `['pl_rade'].mean().sort_values()`. -/
def statLE (a b : Nat × ℚ) : Prop := a.2 ≤ b.2

instance : DecidableRel statLE := fun a b => inferInstanceAs (Decidable (a.2 ≤ b.2))

instance : IsTotal (Nat × ℚ) statLE := ⟨fun a b => le_total a.2 b.2⟩

instance : IsTrans (Nat × ℚ) statLE := ⟨fun _ _ _ h1 h2 => le_trans h1 h2⟩

/-- The `cluster_stats` dataframe: one (raw index, mean radius) row per
non-empty raw cluster, sorted ascending by mean radius. -/
def clusterStats (rows : List LabeledRow) : List (Nat × ℚ) :=
  List.insertionSort statLE ((clusterIdsOf rows).map fun c => (c, groupMeanRad rows c))

/-- The raw cluster indices in rank order (`cluster_stats['cluster_id']`
after the sort). -/
def rankedIds (rows : List LabeledRow) : List Nat :=
  (clusterStats rows).map Prod.fst

/-- Position of the first occurrence of a value in a list. -/
def posIn (c : Nat) : List Nat → Option Nat
  | [] => none
  | x :: xs => if x = c then some 0 else (posIn c xs).map (· + 1)

/-- `cluster_stats['Rank'] = cluster_stats.index + 1`: the stable rank of a
raw cluster index is its position in the mean-radius-sorted stats plus one;
`none` for an index with no rows. -/
def rankOfCluster (rows : List LabeledRow) (c : Nat) : Option Nat :=
  (posIn c (rankedIds rows)).map (· + 1)

/-- The number of non-empty raw clusters (`total_clusters = len(cluster_stats)`). -/
def kPrime (rows : List LabeledRow) : Nat := (clusterStats rows).length

/-- `get_label(rank, total)` from `11_generate_consistent_scatterplots.py`. -/
def getLabelStr (rank total : Nat) : String :=
  if rank = 1 then "Cluster #1 (Smallest)"
  else if rank = total then s!"Cluster #{total} (Largest)"
  else s!"Cluster #{rank}"

/-- The `id_to_label` dictionary build: iterate the sorted stat rows with a
running rank, pairing each raw index with its presentation label. -/
def labelRowsAux (total : Nat) : Nat → List (Nat × ℚ) → List (Nat × String)
  | _, [] => []
  | i, p :: ps => (p.1, getLabelStr i total) :: labelRowsAux total (i + 1) ps

/-- The full `id_to_label` mapping (ranks starting at 1). -/
def idToLabel (rows : List LabeledRow) : List (Nat × String) :=
  labelRowsAux (kPrime rows) 1 (clusterStats rows)

/-- Dictionary lookup in `id_to_label`. -/
def findVal (c : Nat) : List (Nat × String) → Option String
  | [] => none
  | p :: ps => if p.1 = c then some p.2 else findVal c ps

/-- `df['Cluster Label'] = df['cluster_id'].map(id_to_label)`: the label a
row with raw index `c` receives in the reporting output. -/
def clusterLabel (rows : List LabeledRow) (c : Nat) : Option String :=
  findVal c (idToLabel rows)

/-- The rank a named row receives: the stable rank of its raw cluster. -/
def rowRank (rows : List LabeledRow) (nm : String) : Option Nat :=
  match rows.find? fun r => r.pl_name = nm with
  | some r => rankOfCluster rows r.cluster_id
  | none => none

/-- The projection of a labeled row the rank stabilizer actually reads:
its raw cluster index and its untransformed radius. -/
def projCR (r : LabeledRow) : Nat × ℚ := (r.cluster_id, r.pl_rade)

/-- The spec's stabilizer scenario: entities A, B (radii 1, 2) in raw
cluster 1 and C, D (radii 10, 11) in raw cluster 0. -/
def scenarioRows : List LabeledRow :=
  [⟨1, "A", 0, 1, 0, 0, 0, 1⟩, ⟨2, "B", 0, 2, 0, 0, 0, 1⟩,
   ⟨3, "C", 0, 10, 0, 0, 0, 0⟩, ⟨4, "D", 0, 11, 0, 0, 0, 0⟩]

/-- A concrete eligible planet used by witnesses: every attribute present
and every stage flag set. -/
def mkW (i : Nat) : Planet :=
  ⟨i, "P", some 1, some 1, some 1, some 1, some 1, true, true, true, true⟩

/-- Ten identical eligible planets: a population with zero variance in every
log-transformed column. -/
def wPlanets10 : List Planet := (List.range 10).map mkW

/-- A concrete fitter satisfying the KMeans length contract: every row goes
to cluster 0. -/
def wFit : Fitter := fun X _ _ => .ok (X.map fun _ => 0)

/-- A concrete fitter that always reports insufficient population. -/
def fitRaises : Fitter := fun X k _ => .error (.insufficientPopulation X.length k)

/-- Two eligible planets only: a population below every stage's `k`. -/
def smallPlanets : List Planet := [mkW 1, mkW 2]

/-- The labeled dataframe produced by running Stage 1 on `wPlanets10` with
identity log/sqrt models and the all-zeros fitter. -/
def wDf : List LabeledRow :=
  attachLabels (getData wPlanets10 stage1Cfg)
    ((standardizeMatrix (fun x => x)
      (logMatrix (fun x => x) (getData wPlanets10 stage1Cfg) stage1Cfg.feats)).map fun _ => 0)

/-- A planet with the radius attribute missing but every stage flag set. -/
def noRade : Planet :=
  ⟨99, "Q", some 1, none, some 1, some 1, some 1, true, true, true, true⟩

/-- Ten eligible planets plus one flagged planet missing a required feature. -/
def c4planets : List Planet := wPlanets10 ++ [noRade]

/-- The labeled dataframe of the Stage 1 run over `c4planets`. -/
def c4df : List LabeledRow :=
  attachLabels (getData c4planets stage1Cfg)
    ((standardizeMatrix (fun x => x)
      (logMatrix (fun x => x) (getData c4planets stage1Cfg) stage1Cfg.feats)).map fun _ => 0)

/-- Two labeled rows with distinct masses, periods, temperatures, densities. -/
def c10rowsA : List LabeledRow :=
  [⟨1, "A", 5, 1, 7, 8, 9, 1⟩, ⟨2, "B", 6, 2, 3, 4, 5, 0⟩]

/-- The same cluster indices and radii as `c10rowsA`, all other features
changed. -/
def c10rowsB : List LabeledRow :=
  [⟨1, "A", 50, 1, 70, 80, 90, 1⟩, ⟨2, "B", 60, 2, 30, 40, 50, 0⟩]

/-- A fresh per-tier column state: both planets explicitly unknown. -/
def c8fresh : List (Nat × Option Nat) := [(1, none), (2, none)]

/-! ### Helper lemmas about `posIn` -/

theorem posIn_mem : ∀ {l : List Nat} {c p : Nat}, posIn c l = some p → c ∈ l
  | [], _, _, h => by simp [posIn] at h
  | x :: xs, c, p, h => by
    by_cases hx : x = c
    · exact hx ▸ List.mem_cons_self x xs
    · simp only [posIn, if_neg hx] at h
      obtain ⟨q, hq, _⟩ := Option.map_eq_some'.mp h
      exact List.mem_cons_of_mem _ (posIn_mem hq)

theorem posIn_lt_length : ∀ {l : List Nat} {c p : Nat}, posIn c l = some p → p < l.length
  | [], _, _, h => by simp [posIn] at h
  | x :: xs, c, p, h => by
    by_cases hx : x = c
    · simp only [posIn, if_pos hx, Option.some.injEq] at h
      simp [← h]
    · simp only [posIn, if_neg hx] at h
      obtain ⟨q, hq, hqp⟩ := Option.map_eq_some'.mp h
      have := posIn_lt_length hq
      simp only [List.length_cons]
      omega

theorem posIn_isSome_iff : ∀ {l : List Nat} {c : Nat}, (posIn c l).isSome ↔ c ∈ l
  | [], c => by simp [posIn]
  | x :: xs, c => by
    by_cases hx : x = c
    · simp [posIn, if_pos hx, hx]
    · simp only [posIn, if_neg hx, List.mem_cons]
      have hmap : (Option.map (· + 1) (posIn c xs)).isSome = (posIn c xs).isSome := by
        cases posIn c xs <;> rfl
      rw [hmap]
      constructor
      · intro h
        exact Or.inr (posIn_isSome_iff.mp h)
      · rintro (h | h)
        · exact absurd h.symm hx
        · exact posIn_isSome_iff.mpr h

theorem posIn_inj : ∀ {l : List Nat} {c c' p : Nat},
    posIn c l = some p → posIn c' l = some p → c = c'
  | [], _, _, _, h, _ => by simp [posIn] at h
  | x :: xs, c, c', p, h, h' => by
    by_cases hx : x = c <;> by_cases hx' : x = c'
    · exact hx ▸ hx'
    · simp only [posIn, if_pos hx, Option.some.injEq] at h
      simp only [posIn, if_neg hx'] at h'
      obtain ⟨q, _, hq⟩ := Option.map_eq_some'.mp h'
      omega
    · simp only [posIn, if_pos hx', Option.some.injEq] at h'
      simp only [posIn, if_neg hx] at h
      obtain ⟨q, _, hq⟩ := Option.map_eq_some'.mp h
      omega
    · simp only [posIn, if_neg hx] at h
      simp only [posIn, if_neg hx'] at h'
      obtain ⟨q, hq, hqe⟩ := Option.map_eq_some'.mp h
      obtain ⟨q', hq', hqe'⟩ := Option.map_eq_some'.mp h'
      have : q = q' := by omega
      exact posIn_inj hq (this ▸ hq')

theorem posIn_surj : ∀ {l : List Nat}, l.Nodup → ∀ {p : Nat}, p < l.length →
    ∃ c, posIn c l = some p
  | [], _, p, h => absurd h (by simp)
  | x :: xs, hnd, 0, _ => ⟨x, by simp [posIn]⟩
  | x :: xs, hnd, p + 1, h => by
    obtain ⟨c, hc⟩ := posIn_surj (List.nodup_cons.mp hnd).2
      (Nat.lt_of_succ_lt_succ (by simpa using h))
    refine ⟨c, ?_⟩
    have hxc : x ≠ c := fun he => (List.nodup_cons.mp hnd).1 (he ▸ posIn_mem hc)
    simp [posIn, hxc, hc]

/-! ### Helper lemmas about `insertId` / `clusterIdsOf` -/

theorem mem_insertId : ∀ {l : List Nat} {x a : Nat}, a ∈ insertId x l ↔ a = x ∨ a ∈ l
  | [], x, a => by simp [insertId]
  | y :: ys, x, a => by
    by_cases h1 : x = y
    · subst h1
      simp only [insertId, if_pos rfl]
      constructor
      · exact Or.inr
      · rintro (h | h)
        · exact h ▸ List.mem_cons_self _ _
        · exact h
    · by_cases h2 : x < y
      · simp only [insertId, if_neg h1, if_pos h2, List.mem_cons]
      · simp only [insertId, if_neg h1, if_neg h2, List.mem_cons]
        rw [mem_insertId]
        tauto

theorem sorted_insertId : ∀ {l : List Nat} (x : Nat),
    l.Sorted (· < ·) → (insertId x l).Sorted (· < ·)
  | [], x, _ => by simp [insertId]
  | y :: ys, x, h => by
    obtain ⟨hy, hys⟩ := List.sorted_cons.mp h
    by_cases h1 : x = y
    · simpa only [insertId, if_pos h1] using h
    · by_cases h2 : x < y
      · simp only [insertId, if_neg h1, if_pos h2]
        refine List.sorted_cons.mpr ⟨?_, h⟩
        intro b hb
        rcases List.mem_cons.mp hb with hb | hb
        · exact hb ▸ h2
        · exact h2.trans (hy b hb)
      · have hyx : y < x := by omega
        simp only [insertId, if_neg h1, if_neg h2]
        refine List.sorted_cons.mpr ⟨?_, sorted_insertId x hys⟩
        intro b hb
        rcases mem_insertId.mp hb with hb | hb
        · exact hb ▸ hyx
        · exact hy b hb

theorem sorted_clusterIds : ∀ (rows : List LabeledRow), (clusterIdsOf rows).Sorted (· < ·)
  | [] => by simp [clusterIdsOf]
  | r :: rows => sorted_insertId r.cluster_id (sorted_clusterIds rows)

theorem nodup_clusterIds (rows : List LabeledRow) : (clusterIdsOf rows).Nodup :=
  (sorted_clusterIds rows).nodup

theorem mem_clusterIds : ∀ {rows : List LabeledRow} {c : Nat},
    c ∈ clusterIdsOf rows ↔ ∃ r ∈ rows, r.cluster_id = c
  | [], c => by simp [clusterIdsOf]
  | r :: rows, c => by
    show c ∈ insertId r.cluster_id (clusterIdsOf rows) ↔ _
    rw [mem_insertId, mem_clusterIds]
    constructor
    · rintro (h | ⟨r', hr', he⟩)
      · exact ⟨r, List.mem_cons_self _ _, h.symm⟩
      · exact ⟨r', List.mem_cons_of_mem _ hr', he⟩
    · rintro ⟨r', hr', he⟩
      rcases List.mem_cons.mp hr' with h | h
      · exact Or.inl (h ▸ he).symm
      · exact Or.inr ⟨r', h, he⟩

/-! ### Helper lemmas about `clusterStats` / `rankedIds` -/

theorem clusterStats_perm (rows : List LabeledRow) :
    List.Perm (clusterStats rows) ((clusterIdsOf rows).map fun c => (c, groupMeanRad rows c)) :=
  List.perm_insertionSort statLE _

theorem mem_clusterStats (rows : List LabeledRow) {x : Nat × ℚ}
    (hx : x ∈ clusterStats rows) : x.2 = groupMeanRad rows x.1 := by
  have hx' := (clusterStats_perm rows).mem_iff.mp hx
  obtain ⟨c, _, rfl⟩ := List.mem_map.mp hx'
  rfl

theorem rankedIds_perm (rows : List LabeledRow) : List.Perm (rankedIds rows) (clusterIdsOf rows) := by
  have h := (clusterStats_perm rows).map Prod.fst
  rw [List.map_map] at h
  have hid : (Prod.fst ∘ fun c => (c, groupMeanRad rows c)) = id := rfl
  rw [hid, List.map_id] at h
  exact h

theorem nodup_rankedIds (rows : List LabeledRow) : (rankedIds rows).Nodup :=
  (rankedIds_perm rows).nodup_iff.mpr (nodup_clusterIds rows)

theorem mem_rankedIds {rows : List LabeledRow} {c : Nat} :
    c ∈ rankedIds rows ↔ ∃ r ∈ rows, r.cluster_id = c :=
  (rankedIds_perm rows).mem_iff.trans mem_clusterIds

theorem length_rankedIds (rows : List LabeledRow) : (rankedIds rows).length = kPrime rows := by
  simp [rankedIds, kPrime]

theorem sorted_clusterStats (rows : List LabeledRow) :
    (clusterStats rows).Pairwise statLE :=
  List.sorted_insertionSort statLE _

theorem pairwise_posIn_le (m : Nat → ℚ) :
    ∀ {s : List (Nat × ℚ)}, s.Pairwise statLE → (∀ x ∈ s, x.2 = m x.1) →
    ∀ {c c' p p' : Nat}, posIn c (s.map Prod.fst) = some p →
    posIn c' (s.map Prod.fst) = some p' → p ≤ p' → m c ≤ m c'
  | [], _, _, _, _, _, _, h, _, _ => by simp [posIn] at h
  | x :: s, hpw, hm, c, c', p, p', h, h', hpp => by
    simp only [List.map_cons] at h h'
    by_cases hx : x.1 = c
    · by_cases hx' : x.1 = c'
      · have : c = c' := hx ▸ hx'
        exact this ▸ le_refl _
      · simp only [posIn, if_neg hx'] at h'
        obtain ⟨q', hq', _⟩ := Option.map_eq_some'.mp h'
        obtain ⟨y, hy, hyc⟩ := List.mem_map.mp (posIn_mem hq')
        have h1 : x.2 = m c := hx ▸ hm x (List.mem_cons_self _ _)
        have h2 : y.2 = m c' := hyc ▸ hm y (List.mem_cons_of_mem _ hy)
        have h3 : statLE x y := (List.pairwise_cons.mp hpw).1 y hy
        exact h1 ▸ h2 ▸ h3
    · simp only [posIn, if_neg hx] at h
      obtain ⟨q, hq, hqe⟩ := Option.map_eq_some'.mp h
      by_cases hx' : x.1 = c'
      · simp only [posIn, if_pos hx', Option.some.injEq] at h'
        omega
      · simp only [posIn, if_neg hx'] at h'
        obtain ⟨q', hq', hqe'⟩ := Option.map_eq_some'.mp h'
        exact pairwise_posIn_le m (List.pairwise_cons.mp hpw).2
          (fun z hz => hm z (List.mem_cons_of_mem _ hz)) hq hq' (by omega)

theorem rank_mean_monotone (rows : List LabeledRow) {c c' i j : Nat}
    (hc : rankOfCluster rows c = some i) (hc' : rankOfCluster rows c' = some j)
    (hij : i ≤ j) : groupMeanRad rows c ≤ groupMeanRad rows c' := by
  obtain ⟨p, hp, hpi⟩ := Option.map_eq_some'.mp hc
  obtain ⟨p', hp', hpj⟩ := Option.map_eq_some'.mp hc'
  unfold rankedIds at hp hp'
  exact pairwise_posIn_le (groupMeanRad rows) (sorted_clusterStats rows)
    (fun x hx => mem_clusterStats rows hx) hp hp' (by omega)

/-! ### Helper lemmas about the pipeline shape -/

theorem length_logMatrix (lg : ℚ → ℚ) (df : List Planet) (feats : List Feature) :
    (logMatrix lg df feats).length = df.length := by
  simp [logMatrix]

theorem length_standardizeMatrix (sq : ℚ → ℚ) (X : List (List ℚ)) :
    (standardizeMatrix sq X).length = X.length := by
  simp [standardizeMatrix]

theorem attachLabels_map_id : ∀ (df : List Planet) (labels : List Nat),
    labels.length = df.length →
    (attachLabels df labels).map (fun r => r.planet_id) = df.map fun p => p.planet_id
  | [], _, _ => by simp [attachLabels]
  | p :: df, [], h => by simp at h
  | p :: df, l :: labels, h => by
    simp only [attachLabels, List.zip_cons_cons, List.map_cons]
    have ih := attachLabels_map_id df labels (by simpa using h)
    simp only [attachLabels] at ih
    rw [ih]
    rfl

theorem attachLabels_map_cluster : ∀ (df : List Planet) (labels : List Nat),
    labels.length = df.length →
    (attachLabels df labels).map (fun r => r.cluster_id) = labels
  | [], [], _ => by simp [attachLabels]
  | [], l :: labels, h => by simp at h
  | p :: df, [], h => by simp at h
  | p :: df, l :: labels, h => by
    simp only [attachLabels, List.zip_cons_cons, List.map_cons]
    have ih := attachLabels_map_cluster df labels (by simpa using h)
    simp only [attachLabels] at ih
    rw [ih]
    rfl

theorem updatesOf_keys (df : List LabeledRow) :
    (updatesOf df).map Prod.fst = df.map fun r => r.planet_id := by
  simp [updatesOf, List.map_map]

theorem updatesOf_vals (df : List LabeledRow) :
    (updatesOf df).map Prod.snd = df.map fun r => r.cluster_id := by
  simp [updatesOf, List.map_map]

theorem runClustering_skipped {lg sq : ℚ → ℚ} {fit : Fitter} {planets : List Planet}
    {cfg : StageConfig} (h : (getData planets cfg).length < 10) :
    runClustering lg sq fit planets cfg = .skipped := by
  simp [runClustering, h]

theorem runClustering_saved (lg sq : ℚ → ℚ) (fit : Fitter) (planets : List Planet)
    (cfg : StageConfig) (h10 : ¬ (getData planets cfg).length < 10)
    (hfit : ∀ X k s, k ≤ X.length → ∃ ls, fit X k s = .ok ls) (hk : cfg.k ≤ 10) :
    ∃ ls, fit (standardizeMatrix sq (logMatrix lg (getData planets cfg) cfg.feats)) cfg.k 42
        = .ok ls ∧
      runClustering lg sq fit planets cfg = .saved (attachLabels (getData planets cfg) ls) := by
  obtain ⟨ls, hls⟩ := hfit (standardizeMatrix sq (logMatrix lg (getData planets cfg) cfg.feats))
    cfg.k 42 (by rw [length_standardizeMatrix, length_logMatrix]; omega)
  exact ⟨ls, hls, by simp [runClustering, h10, hls]⟩

theorem runClustering_saved_inv {lg sq : ℚ → ℚ} {fit : Fitter} {planets : List Planet}
    {cfg : StageConfig} {df : List LabeledRow}
    (h : runClustering lg sq fit planets cfg = .saved df) :
    ¬ (getData planets cfg).length < 10 ∧
    ∃ ls, fit (standardizeMatrix sq (logMatrix lg (getData planets cfg) cfg.feats)) cfg.k 42
        = .ok ls ∧ df = attachLabels (getData planets cfg) ls := by
  by_cases h10 : (getData planets cfg).length < 10
  · rw [runClustering_skipped h10] at h
    exact absurd h (by simp)
  · refine ⟨h10, ?_⟩
    rcases hf : fit (standardizeMatrix sq (logMatrix lg (getData planets cfg) cfg.feats))
        cfg.k 42 with e | ls
    · simp [runClustering, h10, hf] at h
    · simp only [runClustering, if_neg h10, hf] at h
      exact ⟨ls, rfl, by cases h; rfl⟩

theorem runClustering_not_raised (lg sq : ℚ → ℚ) (fit : Fitter) (planets : List Planet)
    (cfg : StageConfig)
    (hfit : ∀ X k s, k ≤ X.length → ∃ ls, fit X k s = .ok ls) (hk : cfg.k ≤ 10)
    (e : FitError) : runClustering lg sq fit planets cfg ≠ .raised e := by
  by_cases h10 : (getData planets cfg).length < 10
  · rw [runClustering_skipped h10]
    exact fun h => StageResult.noConfusion h
  · obtain ⟨ls, _, hr⟩ := runClustering_saved lg sq fit planets cfg h10 hfit hk
    rw [hr]
    exact fun h => StageResult.noConfusion h

theorem runStages_eq_map (lg sq : ℚ → ℚ) (fit : Fitter) (planets : List Planet)
    (hfit : ∀ X k s, k ≤ X.length → ∃ ls, fit X k s = .ok ls) :
    ∀ stages : List StageConfig, (∀ cfg ∈ stages, cfg.k ≤ 10) →
    runStages lg sq fit planets stages = (stages.map (runClustering lg sq fit planets), none) := by
  intro stages
  induction stages with
  | nil => intro _; rfl
  | cons cfg rest ih =>
    intro hks
    have hns := ih fun c hc => hks c (List.mem_cons_of_mem _ hc)
    rcases hr : runClustering lg sq fit planets cfg with _ | e | df
    · simp [runStages, hr, hns]
    · exact absurd hr
        (runClustering_not_raised lg sq fit planets cfg hfit (hks cfg (List.mem_cons_self _ _)) e)
    · simp [runStages, hr, hns]

/-! ### Helper lemmas about labels and lookups -/

theorem findVal_labelRowsAux (total : Nat) :
    ∀ (s : List (Nat × ℚ)) (i c : Nat),
    findVal c (labelRowsAux total i s)
      = (posIn c (s.map Prod.fst)).map fun p => getLabelStr (i + p) total
  | [], i, c => rfl
  | x :: s, i, c => by
    by_cases hx : x.1 = c
    · simp [labelRowsAux, findVal, hx, posIn]
    · simp only [labelRowsAux, findVal, if_neg hx, List.map_cons, posIn]
      rw [findVal_labelRowsAux total s (i + 1) c]
      cases posIn c (s.map Prod.fst) with
      | none => rfl
      | some p =>
        simp only [Option.map_some']
        have harith : i + 1 + p = i + (p + 1) := by omega
        rw [harith]

theorem clusterLabel_eq_rank_label (rows : List LabeledRow) (c : Nat) :
    clusterLabel rows c = (rankOfCluster rows c).map fun rk => getLabelStr rk (kPrime rows) := by
  unfold clusterLabel idToLabel rankOfCluster rankedIds
  rw [findVal_labelRowsAux]
  cases posIn c ((clusterStats rows).map Prod.fst) with
  | none => rfl
  | some p =>
    simp only [Option.map_some']
    rw [Nat.add_comm]

/-! ### Helper lemmas about the persisted column state -/

theorem mem_applyUpdate_of_ne {db : List (Nat × Option Nat)} {u : Nat × Nat}
    {e : Nat × Option Nat} (he : e ∈ db) (hne : e.1 ≠ u.1) : e ∈ applyUpdate db u := by
  unfold applyUpdate
  refine List.mem_map.mpr ⟨e, he, ?_⟩
  simp [hne]

theorem mem_applyUpdates_of_not_key :
    ∀ {us : List (Nat × Nat)} {db : List (Nat × Option Nat)} {e : Nat × Option Nat},
    e ∈ db → e.1 ∉ us.map Prod.fst → e ∈ applyUpdates db us
  | [], _, _, he, _ => he
  | u :: us, db, e, he, hk => by
    simp only [List.map_cons, List.mem_cons] at hk
    push_neg at hk
    show e ∈ applyUpdates (applyUpdate db u) us
    exact mem_applyUpdates_of_not_key (mem_applyUpdate_of_ne he hk.1) hk.2

theorem mem_of_applyUpdate {db : List (Nat × Option Nat)} {u : Nat × Nat}
    {e : Nat × Option Nat} (he : e ∈ applyUpdate db u) (hne : e.1 ≠ u.1) : e ∈ db := by
  unfold applyUpdate at he
  obtain ⟨y, hy, hye⟩ := List.mem_map.mp he
  by_cases h : y.1 = u.1
  · rw [if_pos h] at hye
    rw [← hye] at hne
    exact absurd h hne
  · rw [if_neg h] at hye
    exact hye ▸ hy

theorem mem_of_applyUpdates_not_key :
    ∀ {us : List (Nat × Nat)} {db : List (Nat × Option Nat)} {e : Nat × Option Nat},
    e ∈ applyUpdates db us → e.1 ∉ us.map Prod.fst → e ∈ db
  | [], _, _, he, _ => he
  | u :: us, db, e, he, hk => by
    simp only [List.map_cons, List.mem_cons] at hk
    push_neg at hk
    have he' : e ∈ applyUpdates (applyUpdate db u) us := he
    exact mem_of_applyUpdate (mem_of_applyUpdates_not_key he' hk.2) hk.1

/-! ### Helper lemmas: what the rank stabilizer reads -/

theorem clusterIdsOf_eq_foldr (rows : List LabeledRow) :
    clusterIdsOf rows = (rows.map fun r => r.cluster_id).foldr insertId [] := by
  induction rows with
  | nil => rfl
  | cons r rows ih => exact congrArg (insertId r.cluster_id) ih

theorem groupRows_radii_eq (rows : List LabeledRow) (c : Nat) :
    (groupRows rows c).map (fun r => r.pl_rade)
      = ((rows.map projCR).filter fun p => p.1 = c).map Prod.snd := by
  induction rows with
  | nil => rfl
  | cons r rows ih =>
    by_cases h : r.cluster_id = c
    · simp [groupRows, projCR, List.filter_cons, h] at ih ⊢
      exact ih
    · simp [groupRows, projCR, List.filter_cons, h] at ih ⊢
      exact ih

theorem cluster_proj_eq {rows1 rows2 : List LabeledRow}
    (h : rows1.map projCR = rows2.map projCR) :
    clusterIdsOf rows1 = clusterIdsOf rows2
      ∧ ∀ c, groupMeanRad rows1 c = groupMeanRad rows2 c := by
  constructor
  · rw [clusterIdsOf_eq_foldr, clusterIdsOf_eq_foldr]
    have h1 : rows1.map (fun r => r.cluster_id) = (rows1.map projCR).map Prod.fst := by
      rw [List.map_map]
      rfl
    have h2 : rows2.map (fun r => r.cluster_id) = (rows2.map projCR).map Prod.fst := by
      rw [List.map_map]
      rfl
    rw [h1, h2, h]
  · intro c
    unfold groupMeanRad
    rw [groupRows_radii_eq, groupRows_radii_eq, h]

theorem rankOfCluster_proj {rows1 rows2 : List LabeledRow}
    (h : rows1.map projCR = rows2.map projCR) (c : Nat) :
    rankOfCluster rows1 c = rankOfCluster rows2 c := by
  obtain ⟨hids, hmeans⟩ := cluster_proj_eq h
  have hfun : (fun c => (c, groupMeanRad rows1 c)) = fun c => (c, groupMeanRad rows2 c) :=
    funext fun c => by rw [hmeans]
  have hstats : clusterStats rows1 = clusterStats rows2 := by
    unfold clusterStats
    rw [hids, hfun]
  unfold rankOfCluster rankedIds
  rw [hstats]

/-! ### Helper lemmas: constant columns -/

theorem sum_const_of_mem {col : List ℚ} {c0 : ℚ} (h : ∀ x ∈ col, x = c0) :
    col.sum = col.length * c0 := by
  induction col with
  | nil => simp
  | cons x xs ih =>
    simp only [List.sum_cons, List.length_cons]
    rw [h x (List.mem_cons_self _ _), ih fun y hy => h y (List.mem_cons_of_mem _ hy)]
    push_cast
    ring

theorem colMean_const {col : List ℚ} {c0 : ℚ} (h : ∀ x ∈ col, x = c0) (hne : col ≠ []) :
    colMean col = c0 := by
  unfold colMean
  rw [sum_const_of_mem h]
  have hlen : (col.length : ℚ) ≠ 0 := by
    have := List.length_pos.mpr hne
    positivity
  field_simp

theorem colVariance_const {col : List ℚ} {c0 : ℚ} (h : ∀ x ∈ col, x = c0) :
    colVariance col = 0 := by
  cases hcol : col with
  | nil => simp [colVariance]
  | cons y ys =>
    unfold colVariance
    rw [← hcol]
    have hm : colMean col = c0 := colMean_const h (by rw [hcol]; exact List.cons_ne_nil _ _)
    have hz : (col.map fun x => (x - colMean col) ^ 2).sum = 0 := by
      apply List.sum_eq_zero
      intro z hz
      obtain ⟨x, hx, rfl⟩ := List.mem_map.mp hz
      rw [h x hx, hm, sub_self]
      ring
    rw [hz, zero_div]

theorem stdEntry_const {sq : ℚ → ℚ} {col : List ℚ} {c0 : ℚ} (h : ∀ x ∈ col, x = c0)
    {x : ℚ} (hx : x ∈ col) : stdEntry sq col x = 0 := by
  unfold stdEntry
  rw [colMean_const h (List.ne_nil_of_mem hx), h x hx, sub_self, zero_div]

theorem scaleOf_const {sq : ℚ → ℚ} {col : List ℚ} {c0 : ℚ} (h : ∀ x ∈ col, x = c0) :
    scaleOf sq col = 1 := by
  unfold scaleOf
  rw [if_pos (colVariance_const h)]


theorem kPrime_eq_length_ids (rows : List LabeledRow) :
    kPrime rows = (clusterIdsOf rows).length := by
  rw [← length_rankedIds]
  exact (rankedIds_perm rows).length_eq

theorem kPrime_le {rows : List LabeledRow} {k : Nat} (hk : ∀ r ∈ rows, r.cluster_id < k) :
    kPrime rows ≤ k := by
  rw [kPrime_eq_length_ids]
  have hnd := nodup_clusterIds rows
  have hsub : (clusterIdsOf rows).toFinset ⊆ Finset.range k := by
    intro c hc
    rw [List.mem_toFinset] at hc
    obtain ⟨r, hr, hrc⟩ := mem_clusterIds.mp hc
    rw [Finset.mem_range]
    exact hrc ▸ hk r hr
  calc (clusterIdsOf rows).length = (clusterIdsOf rows).toFinset.card :=
        (List.toFinset_card_of_nodup hnd).symm
    _ ≤ (Finset.range k).card := Finset.card_le_card hsub
    _ = k := Finset.card_range k

/-! ### Claim theorems -/

/-- Claim C1: for every tier run the rank stabilizer assigns ranks by sorting
the non-empty raw clusters in ascending order of the mean untransformed
radius of their member rows (a lower rank always means a smaller-or-equal
mean radius), and on the spec scenario — radii 1 and 2 in raw cluster 1,
radii 10 and 11 in raw cluster 0, k = 2 — it assigns rank 1 to A and B's
cluster and rank 2 to C and D's cluster, independently of the raw cluster
indices. -/
theorem C1_stabilizer_sorts_by_mean_radius (rows : List LabeledRow) (c c' i j : Nat)
    (hc : rankOfCluster rows c = some i) (hc' : rankOfCluster rows c' = some j)
    (hij : i ≤ j) :
    groupMeanRad rows c ≤ groupMeanRad rows c' ∧
    rankOfCluster scenarioRows 1 = some 1 ∧ rankOfCluster scenarioRows 0 = some 2 ∧
    rowRank scenarioRows "A" = some 1 ∧ rowRank scenarioRows "B" = some 1 ∧
    rowRank scenarioRows "C" = some 2 ∧ rowRank scenarioRows "D" = some 2 :=
  ⟨rank_mean_monotone rows hc hc' hij, by with_unfolding_all decide⟩

/-- Witness for C1 at the spec scenario. -/
theorem C1_witness :
    groupMeanRad scenarioRows 1 ≤ groupMeanRad scenarioRows 0 ∧
    rankOfCluster scenarioRows 1 = some 1 ∧ rankOfCluster scenarioRows 0 = some 2 ∧
    rowRank scenarioRows "A" = some 1 ∧ rowRank scenarioRows "B" = some 1 ∧
    rowRank scenarioRows "C" = some 2 ∧ rowRank scenarioRows "D" = some 2 :=
  C1_stabilizer_sorts_by_mean_radius scenarioRows 1 0 1 2
    (by with_unfolding_all decide) (by with_unfolding_all decide) (by omega)

/-- Claim C3: in every tier run with raw labels below `k`, a raw cluster has
a rank exactly when it is non-empty, every assigned rank lies in
`[1, kPrime]`, every rank in `[1, kPrime]` is used, the map from present raw
indices to ranks is injective (hence a bijection onto `{1..kPrime}`), and
`kPrime ≤ k`, so every assigned rank lies in `[1, k]`. -/
theorem C3_rank_bijection (rows : List LabeledRow) (k : Nat)
    (hk : ∀ r ∈ rows, r.cluster_id < k) :
    (∀ c, (∃ r ∈ rows, r.cluster_id = c) ↔ (rankOfCluster rows c).isSome = true) ∧
    (∀ c rk, rankOfCluster rows c = some rk → 1 ≤ rk ∧ rk ≤ kPrime rows) ∧
    (∀ rk, 1 ≤ rk → rk ≤ kPrime rows → ∃ c, rankOfCluster rows c = some rk) ∧
    (∀ c c' rk, rankOfCluster rows c = some rk → rankOfCluster rows c' = some rk → c = c') ∧
    kPrime rows ≤ k := by
  refine ⟨?_, ?_, ?_, ?_, kPrime_le hk⟩
  · intro c
    have hmap : (rankOfCluster rows c).isSome = (posIn c (rankedIds rows)).isSome := by
      unfold rankOfCluster
      cases posIn c (rankedIds rows) <;> rfl
    rw [hmap]
    constructor
    · intro hex
      exact posIn_isSome_iff.mpr (mem_rankedIds.mpr hex)
    · intro hs
      exact mem_rankedIds.mp (posIn_isSome_iff.mp hs)
  · intro c rk h
    obtain ⟨p, hp, hpe⟩ := Option.map_eq_some'.mp h
    have hlt := posIn_lt_length hp
    rw [length_rankedIds] at hlt
    omega
  · intro rk h1 h2
    have hlen : rk - 1 < (rankedIds rows).length := by
      rw [length_rankedIds]
      omega
    obtain ⟨c, hc⟩ := posIn_surj (nodup_rankedIds rows) hlen
    refine ⟨c, ?_⟩
    unfold rankOfCluster
    rw [hc, Option.map_some']
    have harith : rk - 1 + 1 = rk := by omega
    rw [harith]
  · intro c c' rk h h'
    obtain ⟨p, hp, hpe⟩ := Option.map_eq_some'.mp h
    obtain ⟨p', hp', hpe'⟩ := Option.map_eq_some'.mp h'
    have : p = p' := by omega
    exact posIn_inj hp (this ▸ hp')

/-- Witness for C3 at the spec scenario with k = 2. -/
theorem C3_witness :
    (∀ r ∈ scenarioRows, r.cluster_id < 2) ∧
    ((∀ c, (∃ r ∈ scenarioRows, r.cluster_id = c)
        ↔ (rankOfCluster scenarioRows c).isSome = true) ∧
     (∀ c rk, rankOfCluster scenarioRows c = some rk → 1 ≤ rk ∧ rk ≤ kPrime scenarioRows) ∧
     (∀ rk, 1 ≤ rk → rk ≤ kPrime scenarioRows →
        ∃ c, rankOfCluster scenarioRows c = some rk) ∧
     (∀ c c' rk, rankOfCluster scenarioRows c = some rk →
        rankOfCluster scenarioRows c' = some rk → c = c') ∧
     kPrime scenarioRows ≤ 2) :=
  ⟨by with_unfolding_all decide,
   C3_rank_bijection scenarioRows 2 (by with_unfolding_all decide)⟩

/-- Claim C10: the rank stabilizer reads only the raw cluster index and the
untransformed radius of each row — two labeled datasets agreeing on those
two columns receive identical rank maps and identical per-cluster mean
statistics, whatever their masses, periods, temperatures or densities — and
the tiers whose clustering features include mass and density (Stage 2,
Stage 2c) are in the catalog and use this same radius-based stabilizer. -/
theorem C10_rank_reads_only_radius (rows1 rows2 : List LabeledRow)
    (h : rows1.map projCR = rows2.map projCR) :
    (∀ c, rankOfCluster rows1 c = rankOfCluster rows2 c) ∧
    (∀ c, groupMeanRad rows1 c = groupMeanRad rows2 c) ∧
    Feature.pl_masse ∈ stage2Cfg.feats ∧ Feature.density ∈ stage2cCfg.feats ∧
    stage2Cfg ∈ STAGES ∧ stage2cCfg ∈ STAGES :=
  ⟨rankOfCluster_proj h, (cluster_proj_eq h).2,
   by decide, by decide, by decide, by decide⟩

/-- Witness for C10: the two concrete datasets differ in every non-radius
feature yet get the same ranks. -/
theorem C10_witness :
    c10rowsA.map projCR = c10rowsB.map projCR ∧
    ((∀ c, rankOfCluster c10rowsA c = rankOfCluster c10rowsB c) ∧
     (∀ c, groupMeanRad c10rowsA c = groupMeanRad c10rowsB c) ∧
     Feature.pl_masse ∈ stage2Cfg.feats ∧ Feature.density ∈ stage2cCfg.feats ∧
     stage2Cfg ∈ STAGES ∧ stage2cCfg ∈ STAGES) :=
  ⟨by with_unfolding_all decide,
   C10_rank_reads_only_radius c10rowsA c10rowsB (by with_unfolding_all decide)⟩

/-- Claim C7: two full runs of the fit-and-stabilize pipeline over identical
input data, the same stage configuration, the same seeded fitter and the
same numeric collaborators produce identical labeled dataframes — hence
identical raw cluster labels, identical cluster ranks and identical per-row
ranks.  (Determinism holds because the embedded pipeline has no state beyond
its arguments; the seed 42 is fixed in the code and sklearn's `random_state`
contract makes the fitter a function of its arguments.) -/
theorem C7_two_run_determinism (lg sq : ℚ → ℚ) (fit : Fitter)
    (planets1 planets2 : List Planet) (cfg1 cfg2 : StageConfig)
    (df1 df2 : List LabeledRow) (h1 : planets1 = planets2) (h2 : cfg1 = cfg2)
    (hr1 : runClustering lg sq fit planets1 cfg1 = .saved df1)
    (hr2 : runClustering lg sq fit planets2 cfg2 = .saved df2) :
    df1 = df2 ∧ df1.map (fun r => r.cluster_id) = df2.map (fun r => r.cluster_id) ∧
    (∀ c, rankOfCluster df1 c = rankOfCluster df2 c) ∧
    (∀ nm, rowRank df1 nm = rowRank df2 nm) := by
  subst h1
  subst h2
  rw [hr1] at hr2
  injection hr2 with hdf
  subst hdf
  exact ⟨rfl, rfl, fun _ => rfl, fun _ => rfl⟩

/-- Witness for C7: the Stage 1 run over the ten-planet population, executed
twice with the same inputs. -/
theorem C7_witness :
    runClustering (fun x => x) (fun x => x) wFit wPlanets10 stage1Cfg = .saved wDf ∧
    (wDf = wDf ∧ wDf.map (fun r => r.cluster_id) = wDf.map (fun r => r.cluster_id) ∧
     (∀ c, rankOfCluster wDf c = rankOfCluster wDf c) ∧
     (∀ nm, rowRank wDf nm = rowRank wDf nm)) :=
  ⟨by with_unfolding_all decide,
   C7_two_run_determinism (fun x => x) (fun x => x) wFit wPlanets10 wPlanets10
     stage1Cfg stage1Cfg wDf wDf rfl rfl
     (by with_unfolding_all decide) (by with_unfolding_all decide)⟩

/-- Claim C4: in a completed tier run, a flagged planet enters the tier's
clustering exactly when every required feature is present, the keys of the
persisted update batch are exactly the eligible rows, and a planet missing
any required feature is excluded from the tier entirely (never imputed,
zero-filled or partially included). -/
theorem C4_eligibility_exact (planets : List Planet) (cfg : StageConfig) (p : Planet)
    (lg sq : ℚ → ℚ) (fit : Fitter) (df : List LabeledRow)
    (hp : p ∈ planets) (hflag : flagVal p cfg.db_flag = true)
    (hfit : ∀ X k s ls, fit X k s = .ok ls → ls.length = X.length)
    (hrun : runClustering lg sq fit planets cfg = .saved df) :
    (p ∈ getData planets cfg ↔ ∀ f ∈ cfg.feats, (getFeature p f).isSome = true) ∧
    (updatesOf df).map Prod.fst = (getData planets cfg).map (fun q => q.planet_id) ∧
    ((¬ ∀ f ∈ cfg.feats, (getFeature p f).isSome = true) → p ∉ getData planets cfg) := by
  have hiff : p ∈ getData planets cfg ↔ ∀ f ∈ cfg.feats, (getFeature p f).isSome = true := by
    unfold getData
    rw [List.mem_filter]
    constructor
    · intro hmem
      have := hmem.2
      unfold eligibleRow at this
      rw [List.all_eq_true] at this
      exact this
    · intro hall
      refine ⟨List.mem_filter.mpr ⟨hp, hflag⟩, ?_⟩
      unfold eligibleRow
      rw [List.all_eq_true]
      exact hall
  refine ⟨hiff, ?_, fun hnall hmem => hnall (hiff.mp hmem)⟩
  obtain ⟨h10, ls, hok, hdf⟩ := runClustering_saved_inv hrun
  subst hdf
  rw [updatesOf_keys]
  exact attachLabels_map_id _ _
    (by rw [hfit _ _ _ _ hok, length_standardizeMatrix, length_logMatrix])

/-- Witness for C4: the flagged planet `noRade` misses the required radius,
the Stage 1 run over `c4planets` completes, and `noRade` is excluded. -/
theorem C4_witness :
    noRade ∈ c4planets ∧ flagVal noRade stage1Cfg.db_flag = true ∧
    runClustering (fun x => x) (fun x => x) wFit c4planets stage1Cfg = .saved c4df ∧
    ((noRade ∈ getData c4planets stage1Cfg
        ↔ ∀ f ∈ stage1Cfg.feats, (getFeature noRade f).isSome = true) ∧
     (updatesOf c4df).map Prod.fst = (getData c4planets stage1Cfg).map (fun q => q.planet_id) ∧
     ((¬ ∀ f ∈ stage1Cfg.feats, (getFeature noRade f).isSome = true) →
        noRade ∉ getData c4planets stage1Cfg)) :=
  ⟨by with_unfolding_all decide, by with_unfolding_all decide,
   by with_unfolding_all decide,
   C4_eligibility_exact c4planets stage1Cfg noRade (fun x => x) (fun x => x) wFit c4df
     (by with_unfolding_all decide) (by with_unfolding_all decide)
     (fun X k s ls h => by
       injection h with h'
       rw [← h', List.length_map])
     (by with_unfolding_all decide)⟩

/-- Claim C5 counterexample: the Stage 1 population `wPlanets10` yields a
zero-variance log-transformed column, yet the run is not skipped and no
error of any kind is reported — the outcome is a completed, saved run, so
preprocessing does not report a degenerate-preprocessing failure. -/
theorem C5_zero_variance_cex :
    colVariance (colOf (logMatrix (fun x => x)
      (getData wPlanets10 stage1Cfg) stage1Cfg.feats) 0) = 0 ∧
    (runClustering (fun x => x) (fun x => x) wFit wPlanets10 stage1Cfg).isSaved = true ∧
    runClustering (fun x => x) (fun x => x) wFit wPlanets10 stage1Cfg ≠ .skipped := by
  with_unfolding_all decide

/-- Claim C5, amended: a required feature column with zero variance after
the log transform is standardized with sklearn's documented unit-scale
fallback — the scale is 1, the standardized column is identically zero
(no NaN, no division by zero) — no error is reported and the tier is not
skipped: the run still completes. -/
theorem C5_zero_variance_fallback (lg sq : ℚ → ℚ) (fit : Fitter) (planets : List Planet)
    (cfg : StageConfig) (col : List ℚ) (c0 : ℚ)
    (hc : ∀ x ∈ col, x = c0) (h10 : ¬ (getData planets cfg).length < 10)
    (hfit : ∀ X k s, k ≤ X.length → ∃ ls, fit X k s = .ok ls) (hk : cfg.k ≤ 10) :
    colVariance col = 0 ∧ scaleOf sq col = 1 ∧
    (∀ z ∈ col.map (stdEntry sq col), z = 0) ∧
    ∃ df, runClustering lg sq fit planets cfg = .saved df := by
  refine ⟨colVariance_const hc, scaleOf_const hc, ?_, ?_⟩
  · intro z hz
    obtain ⟨x, hx, rfl⟩ := List.mem_map.mp hz
    exact stdEntry_const hc hx
  · obtain ⟨ls, _, hr⟩ := runClustering_saved lg sq fit planets cfg h10 hfit hk
    exact ⟨_, hr⟩

/-- Witness for the amended C5 on a concrete constant column and the
ten-planet Stage 1 population. -/
theorem C5_witness :
    (∀ x ∈ [(3 : ℚ), 3, 3], x = 3) ∧
    ¬ (getData wPlanets10 stage1Cfg).length < 10 ∧ stage1Cfg.k ≤ 10 ∧
    (colVariance [(3 : ℚ), 3, 3] = 0 ∧ scaleOf (fun x => x) [(3 : ℚ), 3, 3] = 1 ∧
     (∀ z ∈ [(3 : ℚ), 3, 3].map (stdEntry (fun x => x) [(3 : ℚ), 3, 3]), z = 0) ∧
     ∃ df, runClustering (fun x => x) (fun x => x) wFit wPlanets10 stage1Cfg = .saved df) :=
  ⟨by with_unfolding_all decide, by with_unfolding_all decide, by decide,
   C5_zero_variance_fallback (fun x => x) (fun x => x) wFit wPlanets10 stage1Cfg
     [(3 : ℚ), 3, 3] 3 (by with_unfolding_all decide) (by with_unfolding_all decide)
     (fun X k s hle => ⟨X.map fun _ => 0, rfl⟩) (by decide)⟩

/-- Claim C6 counterexample: on a population of two eligible rows (fewer
than Stage 1's k = 3) the outcome is the driver's low-count skip, identical
for a fitter that would report insufficient population and for one that
would succeed — the cluster fitter is never consulted and no
insufficient-population error is signaled. -/
theorem C6_low_population_cex :
    (getData smallPlanets stage1Cfg).length < stage1Cfg.k ∧
    runClustering (fun x => x) (fun x => x) fitRaises smallPlanets stage1Cfg = .skipped ∧
    runClustering (fun x => x) (fun x => x) wFit smallPlanets stage1Cfg = .skipped ∧
    StageResult.skipped ≠ .raised (.insufficientPopulation 2 3) := by
  with_unfolding_all decide

/-- Claim C6, amended: for every tier whose eligible row count is below `k`
(with `k` at most the fixed threshold 10, as for every catalog entry), the
driver skips the tier before the fitter is invoked — the outcome is the
low-count skip, independent of the fitter, and no fitter error is signaled —
while the remaining tiers still run. -/
theorem C6_low_population_skip (lg sq : ℚ → ℚ) (fit fit' : Fitter) (planets : List Planet)
    (cfg : StageConfig) (rest : List StageConfig)
    (hlt : (getData planets cfg).length < cfg.k) (hk : cfg.k ≤ 10) :
    runClustering lg sq fit planets cfg = .skipped ∧
    runClustering lg sq fit planets cfg = runClustering lg sq fit' planets cfg ∧
    (runStages lg sq fit planets (cfg :: rest)).1
      = .skipped :: (runStages lg sq fit planets rest).1 ∧
    (runStages lg sq fit planets (cfg :: rest)).2 = (runStages lg sq fit planets rest).2 := by
  have h10 : (getData planets cfg).length < 10 := by omega
  refine ⟨runClustering_skipped h10, ?_, ?_, ?_⟩
  · rw [runClustering_skipped h10, runClustering_skipped h10]
  · simp [runStages, runClustering_skipped h10]
  · simp [runStages, runClustering_skipped h10]

/-- Witness for the amended C6 on the two-planet population with Stage 1. -/
theorem C6_witness :
    (getData smallPlanets stage1Cfg).length < stage1Cfg.k ∧ stage1Cfg.k ≤ 10 ∧
    (runClustering (fun x => x) (fun x => x) fitRaises smallPlanets stage1Cfg = .skipped ∧
     runClustering (fun x => x) (fun x => x) fitRaises smallPlanets stage1Cfg
       = runClustering (fun x => x) (fun x => x) wFit smallPlanets stage1Cfg ∧
     (runStages (fun x => x) (fun x => x) fitRaises smallPlanets (stage1Cfg :: [])).1
       = .skipped :: (runStages (fun x => x) (fun x => x) fitRaises smallPlanets []).1 ∧
     (runStages (fun x => x) (fun x => x) fitRaises smallPlanets (stage1Cfg :: [])).2
       = (runStages (fun x => x) (fun x => x) fitRaises smallPlanets []).2) :=
  ⟨by with_unfolding_all decide, by decide,
   C6_low_population_skip (fun x => x) (fun x => x) fitRaises wFit smallPlanets
     stage1Cfg [] (by with_unfolding_all decide) (by decide)⟩

/-- Claim C9: the driver loop over the tier catalog yields exactly one
outcome per tier — the outcome list is the pointwise image of the
per-tier pipeline, so no tier's outcome depends on another tier's — and,
under the fitter's contract (labels whenever `k` does not exceed the row
count) and catalog `k`s at most 10, no uncaught error aborts the loop:
every tier is processed. -/
theorem C9_driver_per_tier (lg sq : ℚ → ℚ) (fit : Fitter) (planets : List Planet)
    (stages : List StageConfig)
    (hfit : ∀ X k s, k ≤ X.length → ∃ ls, fit X k s = .ok ls)
    (hks : ∀ cfg ∈ stages, cfg.k ≤ 10) :
    (runStages lg sq fit planets stages).2 = none ∧
    (runStages lg sq fit planets stages).1 = stages.map (runClustering lg sq fit planets) ∧
    (runStages lg sq fit planets stages).1.length = stages.length := by
  have h := runStages_eq_map lg sq fit planets hfit stages hks
  rw [h]
  exact ⟨rfl, rfl, List.length_map _ _⟩

/-- Witness for C9 over the actual catalog: a mixed population where the
small stages skip while others complete, and one outcome per tier. -/
theorem C9_witness :
    (∀ cfg ∈ STAGES, cfg.k ≤ 10) ∧
    ((runStages (fun x => x) (fun x => x) wFit wPlanets10 STAGES).2 = none ∧
     (runStages (fun x => x) (fun x => x) wFit wPlanets10 STAGES).1
       = STAGES.map (runClustering (fun x => x) (fun x => x) wFit wPlanets10) ∧
     (runStages (fun x => x) (fun x => x) wFit wPlanets10 STAGES).1.length = STAGES.length) :=
  ⟨by decide,
   C9_driver_per_tier (fun x => x) (fun x => x) wFit wPlanets10 STAGES
     (fun X k s hle => ⟨X.map fun _ => 0, rfl⟩) (by decide)⟩

/-- Claim C2 counterexample: in the completed Stage 1 run over `wPlanets10`,
the value written to the persisted column for planet 0 is its raw cluster
index 0, while the rank stabilizer assigns that cluster the stable rank 1 —
the persisted value is not the stable rank. -/
theorem C2_raw_index_persisted_cex :
    runClustering (fun x => x) (fun x => x) wFit wPlanets10 stage1Cfg = .saved wDf ∧
    findAssign 0 (updatesOf wDf) = some 0 ∧
    rankOfCluster wDf 0 = some 1 ∧ (some 0 ≠ some (1 : Nat)) := by
  with_unfolding_all decide

/-- Claim C2, amended: the values written to the tier's persisted column are
exactly the raw cluster indices returned by the fitter (not the stable
ranks), and downstream reporting maps each persisted raw index to a label
that is a function of the stable rank and the non-empty-cluster count
alone. -/
theorem C2_persists_raw_index (lg sq : ℚ → ℚ) (fit : Fitter) (planets : List Planet)
    (cfg : StageConfig) (df : List LabeledRow)
    (hfit : ∀ X k s ls, fit X k s = .ok ls → ls.length = X.length)
    (hrun : runClustering lg sq fit planets cfg = .saved df) :
    (∃ ls, fit (standardizeMatrix sq (logMatrix lg (getData planets cfg) cfg.feats)) cfg.k 42
        = .ok ls ∧ (updatesOf df).map Prod.snd = ls) ∧
    (∀ rows c, clusterLabel rows c
        = (rankOfCluster rows c).map fun rk => getLabelStr rk (kPrime rows)) := by
  constructor
  · obtain ⟨h10, ls, hok, hdf⟩ := runClustering_saved_inv hrun
    refine ⟨ls, hok, ?_⟩
    subst hdf
    rw [updatesOf_vals]
    exact attachLabels_map_cluster _ _
      (by rw [hfit _ _ _ _ hok, length_standardizeMatrix, length_logMatrix])
  · exact clusterLabel_eq_rank_label

/-- Witness for the amended C2 on the completed Stage 1 run. -/
theorem C2_witness :
    runClustering (fun x => x) (fun x => x) wFit wPlanets10 stage1Cfg = .saved wDf ∧
    ((∃ ls, wFit (standardizeMatrix (fun x => x)
        (logMatrix (fun x => x) (getData wPlanets10 stage1Cfg) stage1Cfg.feats))
          stage1Cfg.k 42 = .ok ls ∧ (updatesOf wDf).map Prod.snd = ls) ∧
     (∀ rows c, clusterLabel rows c
        = (rankOfCluster rows c).map fun rk => getLabelStr rk (kPrime rows))) :=
  ⟨by with_unfolding_all decide,
   C2_persists_raw_index (fun x => x) (fun x => x) wFit wPlanets10 stage1Cfg wDf
     (fun X k s ls h => by
       injection h with h'
       rw [← h', List.length_map])
     (by with_unfolding_all decide)⟩

/-- Claim C8 counterexample: starting from a fresh all-unknown column,
run 1 assigns planets 1 and 2, run 2 re-assigns only planet 2 (planet 1 is
no longer eligible); after run 2 planet 1 still holds its stale value from
run 1 instead of the explicit unknown the claim requires. -/
theorem C8_stale_value_cex :
    dbValue 1 (applyUpdates (applyUpdates c8fresh [(1, 0), (2, 1)]) [(2, 0)])
      = some (some 0) ∧
    (some (some 0) : Option (Option Nat)) ≠ some none := by
  with_unfolding_all decide

/-- Claim C8, amended: the per-tier update batch touches only the rows it
lists — on a fresh (all-unknown) column every entity not in the batch is
left explicitly unknown, but a re-run does not clear entries for entities
no longer eligible: an untouched entry keeps its previous value unchanged
(stale values persist). -/
theorem C8_upsert_untouched (db : List (Nat × Option Nat)) (us : List (Nat × Nat))
    (e : Nat × Option Nat) (he : e ∈ db) (hk : e.1 ∉ us.map Prod.fst) :
    e ∈ applyUpdates db us ∧
    ((∀ x ∈ db, x.2 = none) →
      ∀ x ∈ applyUpdates db us, x.1 ∉ us.map Prod.fst → x.2 = none) :=
  ⟨mem_applyUpdates_of_not_key he hk,
   fun hfresh x hx hxk => hfresh x (mem_of_applyUpdates_not_key hx hxk)⟩

/-- Witness for the amended C8: planet 1's stale entry survives a re-run
that updates only planet 2. -/
theorem C8_witness :
    ((1, some 0) ∈ [((1 : Nat), some (0 : Nat)), (2, some 1)] ∧
     (1 : Nat) ∉ [((2 : Nat), (0 : Nat))].map Prod.fst) ∧
    ((1, some 0) ∈ applyUpdates [((1 : Nat), some (0 : Nat)), (2, some 1)] [(2, 0)] ∧
     ((∀ x ∈ [((1 : Nat), some (0 : Nat)), (2, some 1)], x.2 = none) →
       ∀ x ∈ applyUpdates [((1 : Nat), some (0 : Nat)), (2, some 1)] [(2, 0)],
         x.1 ∉ [((2 : Nat), (0 : Nat))].map Prod.fst → x.2 = none)) :=
  ⟨⟨by decide, by decide⟩,
   C8_upsert_untouched [((1 : Nat), some (0 : Nat)), (2, some 1)] [(2, 0)] (1, some 0)
     (by decide) (by decide)⟩
